import Mathlib

/-
Verification of the docx-to-pptx conversion script (src/convert.py) against
its natural-language specification.

The shallow embedding below translates the script into Lean definitions:
  * the docx data model is rendered as seen through the python-docx API
    (body elements, paragraph properties, numbering metadata, runs, tables);
  * the pptx side is rendered as the visible data the script writes
    (paragraph text, indentation level, table cell text and bold flag);
  * python floats measuring inches are rendered as rationals;
  * a python function that raises is rendered as an Except value.
Every definition follows the source line by line; where the source calls
a helper that is absent from src/, the helper is modelled from the spec
and its doc comment says so.
-/

namespace Convert

/-! ## Python string primitives

The script manipulates python strings through strip(), upper(),
startswith(), slicing, len() and join().  These are modelled here as
executable functions on the character data of a Lean String. -/
namespace Py

/-- python str.strip(): drop whitespace characters from both ends. -/
def strip (s : String) : String :=
  ⟨((s.data.dropWhile Char.isWhitespace).reverse.dropWhile Char.isWhitespace).reverse⟩

/-- python str.upper() (on the ASCII letters the script compares). -/
def upper (s : String) : String :=
  ⟨s.data.map Char.toUpper⟩

/-- python str.startswith(pre). -/
def startswith (s pre : String) : Bool :=
  pre.data.isPrefixOf s.data

/-- python slicing s[n:]. -/
def dropChars (s : String) (n : Nat) : String :=
  ⟨s.data.drop n⟩

/-- python len(s). -/
def strLen (s : String) : Nat :=
  s.data.length

/-- python emptiness (the truthiness test "if not text"). -/
def isEmptyStr (s : String) : Bool :=
  s.data.isEmpty

/-- python sep.join(parts). -/
def joinSep (sep : String) : List String → String
  | [] => ""
  | [x] => x
  | x :: xs => x ++ sep ++ joinSep sep xs

/-- Concatenation of a list of strings (python "".join / repeated +). -/
def concat (parts : List String) : String :=
  ⟨(parts.map String.data).flatten⟩

end Py

/-! ## Source-document data model (as exposed by python-docx) -/

/-- One text run inside a paragraph: run.text, run.bold, run.italic,
run.underline, run.font.size (None rendered as Option.none). -/
structure RunData where
  text : String
  bold : Option Bool
  italic : Option Bool
  underline : Option Bool
  fontSizePt : Option ℚ
deriving DecidableEq

/-- The w:numPr list-numbering node of a paragraph: optional ilvl level
and optional numId reference. -/
structure NumPr where
  ilvl : Option Nat
  numId : Option Nat
deriving DecidableEq

/-- Paragraph properties (w:pPr): the optional numbering node and the
optional left indent (w:ind/@w:left), in inches.  The left indent is part
of the document model; whether the script reads it is settled below. -/
structure PPr where
  numPr : Option NumPr
  indLeftInches : Option ℚ
deriving DecidableEq

/-- A body-level paragraph element (w:p). -/
structure ParaElem where
  pPr : Option PPr
  runs : List RunData
deriving DecidableEq

/-- A body-level table element (w:tbl): the grid column count (tblGrid,
what len(table.columns) returns) and the rows, each row a list of cells,
each cell a list of paragraph texts. -/
structure TblElem where
  gridCols : Nat
  cells : List (List (List String))
deriving DecidableEq

/-- A child of the document body: a paragraph, a table, or some other
element (e.g. w:sectPr) whose tag ends neither in p nor in tbl. -/
inductive BodyElem
  | p (e : ParaElem)
  | tbl (t : TblElem)
  | other
deriving DecidableEq

/-- The source document.  numListFirstAbstract is the abstractNumId of
doc.part.numbering_part.numbering_definitions._numbering.num_list[0];
Option.none renders the case in which that lookup raises (no numbering
part, or an empty num list). -/
structure Docx where
  body : List BodyElem
  numListFirstAbstract : Option Int
deriving DecidableEq

/-- paragraph.text in python-docx: concatenation of the run texts. -/
def paraText (p : ParaElem) : String :=
  Py.concat (p.runs.map RunData.text)

/-! ## Format classifier: get_paragraph_style (convert.py lines 148-187) -/

/-- The style record built by get_paragraph_style. -/
structure StyleData where
  bullet : Bool
  number : Bool
  level : Nat
  runs : List RunData
deriving DecidableEq

/-- get_paragraph_style (convert.py lines 148-187).  level is taken from
numPr.ilvl when present (the left indent is never read); when a numId is
present the list kind is decided from the abstractNumId of the FIRST
numbering definition of the document (bullet when it equals 0, number
otherwise, bullet when the lookup raises). -/
def get_paragraph_style (doc : Docx) (para : ParaElem) : StyleData :=
  let base : StyleData := { bullet := false, number := false, level := 0, runs := para.runs }
  match para.pPr with
  | none => base
  | some pr =>
    match pr.numPr with
    | none => base
    | some np =>
      let withLevel := { base with level := np.ilvl.getD 0 }
      match np.numId with
      | none => withLevel
      | some _ =>
        match doc.numListFirstAbstract with
        | none => { withLevel with bullet := true }
        | some a =>
          if a = 0 then { withLevel with bullet := true }
          else { withLevel with number := true }

/-! ## Block extractor (convert.py lines 190-195) -/

/-- The typed pairs produced by the extraction loop. -/
inductive Extracted
  | para (e : ParaElem)
  | table (t : TblElem)
deriving DecidableEq

/-- First paragraph child of the body: doc.element.body.find_all of the
paragraph tag, index 0. -/
def firstPara : List BodyElem → Option ParaElem
  | [] => none
  | .p e :: _ => some e
  | _ :: rest => firstPara rest

/-- First table child of the body: doc.element.body.find_all of the
table tag, index 0. -/
def firstTbl : List BodyElem → Option TblElem
  | [] => none
  | .tbl t :: _ => some t
  | _ :: rest => firstTbl rest

/-- The body walk of parse_word_content (convert.py lines 190-195) under
the evident findall reading.  For each body child whose tag ends in p
(resp. tbl) the source appends doc.element.body.find_all(element.tag)[0]
— the FIRST element with that tag — rather than the current element
itself.  Note that find_all does not exist at all on python-docx/lxml
elements (lxml only has findall), so the literal run raises
AttributeError as soon as the body holds a paragraph or a table; that
literal error path is rendered separately by extract_elements_run
below, while this definition renders the intended first-matching-child
semantics of the call. -/
def extract_elements (doc : Docx) : List Extracted :=
  doc.body.filterMap fun e =>
    match e with
    | .p _ => (firstPara doc.body).map Extracted.para
    | .tbl _ => (firstTbl doc.body).map Extracted.table
    | .other => none

/-! ## Slide segmenter (convert.py lines 198-232) -/

/-- A content entry of a slide record: the stripped paragraph text plus
the style record. -/
structure ParaData where
  text : String
  style : StyleData
deriving DecidableEq

/-- One slide record as built by parse_word_content. -/
structure SlideData where
  title : String
  subtitle : String
  content : List ParaData
  tables : List TblElem
deriving DecidableEq

/-- The fresh record opened at a SLIDE marker. -/
def emptySlide : SlideData :=
  { title := "", subtitle := "", content := [], tables := [] }

/-- The title field label (convert.py line 216). -/
def titreLabel : String := "Titre :"

/-- The subtitle field label (convert.py line 218). -/
def sousTitreLabel : String := "Sous-titre / Message clé :"

/-- One iteration of the segmentation loop (convert.py lines 198-229),
acting on the accumulated (slides_data, current_slide) state. -/
def segStep (doc : Docx) (st : List SlideData × Option SlideData) (e : Extracted) :
    List SlideData × Option SlideData :=
  match e with
  | .table t =>
    match st.2 with
    | none => st
    | some cur => (st.1, some { cur with tables := cur.tables ++ [t] })
  | .para pe =>
    let text := Py.strip (paraText pe)
    if Py.isEmptyStr text then st
    else if Py.startswith (Py.upper text) "SLIDE" then
      (st.1 ++ st.2.toList, some emptySlide)
    else
      match st.2 with
      | none => st
      | some cur =>
        if Py.startswith text titreLabel then
          (st.1, some { cur with title := Py.strip (Py.dropChars text (Py.strLen titreLabel)) })
        else if Py.startswith text sousTitreLabel then
          (st.1, some
            { cur with subtitle := Py.strip (Py.dropChars text (Py.strLen sousTitreLabel)) })
        else
          (st.1, some { cur with content := cur.content ++ [⟨text, get_paragraph_style doc pe⟩] })

/-- The segmentation loop plus the final flush of the open record
(convert.py lines 198-232). -/
def segmentElems (doc : Docx) (elems : List Extracted) : List SlideData :=
  let st := elems.foldl (segStep doc) ([], none)
  st.1 ++ st.2.toList

/-- parse_word_content (convert.py lines 140-235): extraction followed
by segmentation, under the intended findall reading of the extraction
call.  The literal run, in which find_all raises AttributeError on any
body holding a paragraph or table, is rendered by parse_word_content_run
below. -/
def parse_word_content (doc : Docx) : List SlideData :=
  segmentElems doc (extract_elements doc)

/-- The informational message printed at convert.py line 234. -/
def parse_log (doc : Docx) : String :=
  "Nombre total de slides analysées : " ++ toString (parse_word_content doc).length

/-- A paragraph whose stripped text starts, case-insensitively, with
SLIDE (the marker test at convert.py line 205). -/
def isMarkerPara (pe : ParaElem) : Bool :=
  Py.startswith (Py.upper (Py.strip (paraText pe))) "SLIDE"

/-- Marker test lifted to body elements. -/
def isMarkerElem : BodyElem → Bool
  | .p e => isMarkerPara e
  | _ => false

/-- Marker test lifted to extracted pairs. -/
def isMarkerExtracted : Extracted → Bool
  | .para pe => isMarkerPara pe
  | .table _ => false

/-- Number of SLIDE-marker paragraphs among the body elements of the
document. -/
def markerCount (doc : Docx) : Nat :=
  doc.body.countP isMarkerElem

/-! ## Slide emitter: create_slide (convert.py lines 255-348; the text
after the first return at line 348 is unreachable) -/

/-- A destination paragraph as the script writes it: the visible text of
the pptx paragraph and its indentation level.  Run-level styling
(bold/italic/underline/size, all forced to the Arial face) is carried by
the source runs and is not needed by any claim below. -/
structure PParagraph where
  text : String
  level : Nat
deriving DecidableEq

/-- The visible text the content loop puts into the paragraph
(convert.py lines 305-325): the concatenated run texts when the style
captured runs, the stored block text otherwise. -/
def visibleText (c : ParaData) : String :=
  if c.style.runs.isEmpty then c.text
  else Py.concat (c.style.runs.map RunData.text)

/-- Increment the per-level counter at one level, leaving the others
unchanged (the counter update of the modelled helper below). -/
def bumpAt (counters : Nat → Nat) (level : Nat) : Nat → Nat :=
  fun l => if l = level then counters level + 1 else counters l

/-- Modelled from the spec: add_bullet_or_number is called by
create_slide (convert.py line 330) but is defined nowhere under src/.
Spec section 4.4: for a bullet block the destination paragraph's visible
text is the literal glyph "• " concatenated with the run text; for an
ordinal block a per-slide, per-level counter is incremented and the text
is the counter followed by ". " and the run text. -/
def add_bullet_or_number (counters : Nat → Nat) (p : PParagraph) (is_bullet : Bool)
    (level : Nat) : PParagraph × (Nat → Nat) :=
  if is_bullet then
    ({ p with text := "• " ++ p.text }, counters)
  else
    ({ p with text := toString (counters level + 1) ++ ". " ++ p.text },
     bumpAt counters level)

/-- The content loop of create_slide (convert.py lines 293-332): one
destination paragraph per content block; when the block is a bullet or a
number, its level is applied and add_bullet_or_number is called,
threading the ordinal counters; otherwise the paragraph stays at level 0.
Returns the emitted paragraphs and the final counter state. -/
def emitBlocksAux (counters : Nat → Nat) : List ParaData → List PParagraph × (Nat → Nat)
  | [] => ([], counters)
  | c :: rest =>
    if c.style.bullet || c.style.number then
      let pc := add_bullet_or_number counters ⟨visibleText c, c.style.level⟩
        c.style.bullet c.style.level
      let r := emitBlocksAux pc.2 rest
      (pc.1 :: r.1, r.2)
    else
      let r := emitBlocksAux counters rest
      (⟨visibleText c, 0⟩ :: r.1, r.2)

/-! ## Table emission: add_table_to_slide (convert.py lines 111-138) -/

/-- A destination table cell: its text and its bold flag (Option.none
when the script never touches p.font.bold, mirroring python-pptx's
tri-state None default). -/
structure PCell where
  text : String
  bold : Option Bool
deriving DecidableEq

/-- The cell text built at convert.py line 126: the source cell's
paragraph texts with empty ones dropped, joined by a single space. -/
def cellText (paras : List String) : String :=
  Py.joinSep " " (paras.filter fun s => !(Py.isEmptyStr s))

/-- The destination cell written for source row index i: text from
cellText, bold forced on exactly when i = 0 (convert.py lines 128-136). -/
def mkPCell (i : Nat) (c : List String) : PCell :=
  { text := cellText c, bold := if i = 0 then some true else none }

/-- The fresh rows-by-cols grid created by slide.shapes.add_table
(convert.py line 119): every cell empty, bold untouched. -/
def mkGrid (rows cols : Nat) : List (List PCell) :=
  List.replicate rows (List.replicate cols { text := "", bold := none })

/-- Write one destination cell: tbl.cell(i, j) assignment.  Out-of-range
indices leave the grid unchanged; the fill below only uses in-range
indices on rectangular sources. -/
def setCell (grid : List (List PCell)) (i j : Nat) (c : PCell) : List (List PCell) :=
  match grid[i]? with
  | none => grid
  | some row => grid.set i (row.set j c)

/-- The inner cell loop of convert.py lines 124-136 (enumerate over the
cells of source row i, starting at destination column j). -/
def fillRowCells (i : Nat) : Nat → List (List PCell) → List (List String) → List (List PCell)
  | _, grid, [] => grid
  | j, grid, c :: rest => fillRowCells i (j + 1) (setCell grid i j (mkPCell i c)) rest

/-- The outer row loop of convert.py lines 123-136 (enumerate over the
source rows, starting at destination row i). -/
def fillCells : Nat → List (List PCell) → List (List (List String)) → List (List PCell)
  | _, grid, [] => grid
  | i, grid, row :: rest => fillCells (i + 1) (fillRowCells i 0 grid row) rest

/-- add_table_to_slide (convert.py lines 111-138): create a grid sized
len(table.rows) by len(table.columns), then copy and format every source
cell into it. -/
def add_table_to_slide (t : TblElem) : List (List PCell) :=
  fillCells 0 (mkGrid t.cells.length t.gridCols) t.cells

/-! ## Whole slides and the top-level conversion -/

/-- One emitted slide: title box text, subtitle box text, the content
paragraphs, and the emitted tables. -/
structure EmittedSlide where
  title : String
  subtitle : String
  paragraphs : List PParagraph
  tables : List (List (List PCell))
deriving DecidableEq

/-- CONTENT_ZONE y coordinate, inches (convert.py line 37: 189 px at 96
px per inch). -/
def CONTENT_Y : ℚ := 189 / 96

/-- CONTENT_ZONE height, inches (convert.py line 39). -/
def CONTENT_H : ℚ := max (425 / 96) 1

/-- The table loop of create_slide (convert.py lines 335-346): starting
from the running y position, stop as soon as one more inch would
overflow the content zone, otherwise emit the table and advance by
0.3 inch per row plus 0.2 inch spacing. -/
def emitTables : ℚ → List TblElem → List (List (List PCell))
  | _, [] => []
  | y, t :: rest =>
    if CONTENT_Y + CONTENT_H < y + 1 then []
    else
      add_table_to_slide t ::
        emitTables (y + (t.cells.length : ℚ) * (3 / 10) + 2 / 10) rest

/-- create_slide (convert.py lines 255-348).  Layout lookup and shape
positioning are pptx plumbing; the data written is: the record's title
and subtitle into their zones, the content paragraphs (ordinal counters
starting from zero for this slide), and the tables that fit below the
content (each content block advanced y by 0.3 inch). -/
def create_slide (sd : SlideData) : EmittedSlide :=
  { title := sd.title
    subtitle := sd.subtitle
    paragraphs := (emitBlocksAux (fun _ => 0) sd.content).1
    tables := emitTables (CONTENT_Y + (3 / 10) * sd.content.length) sd.tables }

/-- Does the run succeed?  (Except.ok test.) -/
def exceptOk {α : Type} (e : Except String α) : Bool :=
  match e with
  | .ok _ => true
  | .error _ => false

/-- create_ppt_from_docx (convert.py lines 491-529).  File existence,
template validation and saving are I/O and are elided (a valid template
is assumed); the ValueError raised at line 507 when parse_word_content
returns no slides is rendered as Except.error with the source's message. -/
def create_ppt_from_docx (doc : Docx) : Except String (List EmittedSlide) :=
  let slides_data := parse_word_content doc
  if slides_data.isEmpty then
    Except.error "Aucune slide trouvée dans le document Word."
  else
    Except.ok (slides_data.map create_slide)

/-! ## The literal run of the extraction loop

The definitions above give the find_all call at convert.py lines 193 and
195 its evident findall meaning.  The literal program does something
else: find_all is not a method of python-docx/lxml elements at all, so
the very first body child whose tag ends in p or tbl makes the loop
raise AttributeError, before any slide record or log message exists.
The definitions below render that literal error path. -/

/-- Whether a body child makes the extraction loop call find_all
(convert.py lines 192-195): its tag ends in p or in tbl. -/
def callsFindAll : BodyElem → Bool
  | .p _ => true
  | .tbl _ => true
  | .other => false

/-- The AttributeError the literal run raises at convert.py line 193 or
195: the body element has no find_all method. -/
def findAllErrorMsg : String := "AttributeError: find_all"

/-- The extraction loop as the literal source runs: the first body
child whose tag ends in p or tbl triggers find_all and raises
AttributeError; a body with no such child completes with the empty
pair list. -/
def extract_elements_run (doc : Docx) : Except String (List Extracted) :=
  if doc.body.any callsFindAll then Except.error findAllErrorMsg
  else Except.ok []

/-- parse_word_content as the literal source runs: an AttributeError
from the extraction loop propagates (the count message at line 234 is
then never printed); otherwise segmentation runs on the extracted
pairs. -/
def parse_word_content_run (doc : Docx) : Except String (List SlideData) :=
  match extract_elements_run doc with
  | .error e => .error e
  | .ok elems => .ok (segmentElems doc elems)

/-- create_ppt_from_docx as the literal source runs: an error from
parsing propagates, an empty slide list raises ValueError (convert.py
line 507), and otherwise the slides are emitted. -/
def create_ppt_from_docx_run (doc : Docx) : Except String (List EmittedSlide) :=
  match parse_word_content_run doc with
  | .error e => .error e
  | .ok slides_data =>
    if slides_data.isEmpty then
      Except.error "Aucune slide trouvée dans le document Word."
    else
      Except.ok (slides_data.map create_slide)

/-! ## Ordinal bookkeeping used to state the emission claims -/

/-- An ordinal (numbered, not bulleted) block sitting at level l. -/
def isOrdinalAt (l : Nat) (c : ParaData) : Bool :=
  c.style.number && !c.style.bullet && (c.style.level == l)

/-- The ordinal number the emitter gives block i of a slide at level l:
how many ordinal blocks at that level occur among the first i + 1 blocks
of the slide.  The first such block gets 1, siblings get consecutive
integers, and the count depends on this slide's blocks only. -/
def ordinalIndex (blocks : List ParaData) (i l : Nat) : Nat :=
  (blocks.take (i + 1)).countP (isOrdinalAt l)

/-! ## Lemmas about the content-emission loop -/

theorem emitBlocksAux_cons_bullet (counters : Nat → Nat) (d : ParaData)
    (rest : List ParaData) (hdb : d.style.bullet = true) :
    emitBlocksAux counters (d :: rest) =
      (⟨"• " ++ visibleText d, d.style.level⟩ :: (emitBlocksAux counters rest).1,
       (emitBlocksAux counters rest).2) := by
  simp [emitBlocksAux, hdb, add_bullet_or_number]

theorem emitBlocksAux_cons_number (counters : Nat → Nat) (d : ParaData)
    (rest : List ParaData) (hdb : d.style.bullet = false) (hdn : d.style.number = true) :
    emitBlocksAux counters (d :: rest) =
      (⟨toString (counters d.style.level + 1) ++ ". " ++ visibleText d, d.style.level⟩ ::
         (emitBlocksAux (bumpAt counters d.style.level) rest).1,
       (emitBlocksAux (bumpAt counters d.style.level) rest).2) := by
  simp [emitBlocksAux, hdb, hdn, add_bullet_or_number]

theorem emitBlocksAux_cons_plain (counters : Nat → Nat) (d : ParaData)
    (rest : List ParaData) (hdb : d.style.bullet = false) (hdn : d.style.number = false) :
    emitBlocksAux counters (d :: rest) =
      (⟨visibleText d, 0⟩ :: (emitBlocksAux counters rest).1,
       (emitBlocksAux counters rest).2) := by
  simp [emitBlocksAux, hdb, hdn]

theorem emitBlocksAux_length (counters : Nat → Nat) (bs : List ParaData) :
    (emitBlocksAux counters bs).1.length = bs.length := by
  induction bs generalizing counters with
  | nil => rfl
  | cons c rest ih =>
    simp only [emitBlocksAux]
    split
    · simpa using ih _
    · simpa using ih _

theorem emitBlocksAux_bullet (bs : List ParaData) (counters : Nat → Nat) (i : Nat)
    (c : ParaData) (hget : bs[i]? = some c) (hb : c.style.bullet = true) :
    (emitBlocksAux counters bs).1[i]? =
      some ⟨"• " ++ visibleText c, c.style.level⟩ := by
  induction bs generalizing counters i with
  | nil => simp at hget
  | cons d rest ih =>
    cases i with
    | zero =>
      have hd : d = c := by simpa using hget
      subst hd
      simp [emitBlocksAux, hb, add_bullet_or_number]
    | succ j =>
      have hget' : rest[j]? = some c := by simpa using hget
      simp only [emitBlocksAux]
      split
      · simpa using ih _ j hget'
      · simpa using ih _ j hget'

theorem emitBlocksAux_ordinal (bs : List ParaData) (counters : Nat → Nat) (i : Nat)
    (c : ParaData) (hget : bs[i]? = some c) (hn : c.style.number = true)
    (hb : c.style.bullet = false) :
    (emitBlocksAux counters bs).1[i]? =
      some ⟨toString (counters c.style.level +
              (bs.take (i + 1)).countP (isOrdinalAt c.style.level)) ++ ". " ++ visibleText c,
            c.style.level⟩ := by
  induction bs generalizing counters i with
  | nil => simp at hget
  | cons d rest ih =>
    cases i with
    | zero =>
      have hd : d = c := by simpa using hget
      subst hd
      have hord : isOrdinalAt d.style.level d = true := by simp [isOrdinalAt, hn, hb]
      simp [emitBlocksAux, hn, hb, add_bullet_or_number, List.countP_cons, hord]
    | succ j =>
      have hget' : rest[j]? = some c := by simpa using hget
      have htake : ((d :: rest).take (j + 1 + 1)).countP (isOrdinalAt c.style.level) =
          (rest.take (j + 1)).countP (isOrdinalAt c.style.level) +
            (if isOrdinalAt c.style.level d = true then 1 else 0) := by
        simp [List.take_succ_cons, List.countP_cons]
      rw [htake]
      by_cases hdb : d.style.bullet = true
      · have hord : isOrdinalAt c.style.level d = false := by simp [isOrdinalAt, hdb]
        rw [hord, emitBlocksAux_cons_bullet counters d rest hdb, List.getElem?_cons_succ,
          ih counters j hget']
        simp
      · have hdbf : d.style.bullet = false := by simpa using hdb
        by_cases hdn : d.style.number = true
        · rw [emitBlocksAux_cons_number counters d rest hdbf hdn, List.getElem?_cons_succ,
            ih (bumpAt counters d.style.level) j hget']
          by_cases hl : c.style.level = d.style.level
          · have hord : isOrdinalAt c.style.level d = true := by
              simp [isOrdinalAt, hdn, hdbf, hl.symm]
            rw [hord]
            have harith : bumpAt counters d.style.level c.style.level +
                  (rest.take (j + 1)).countP (isOrdinalAt c.style.level) =
                counters c.style.level +
                  ((rest.take (j + 1)).countP (isOrdinalAt c.style.level) +
                    (if True then 1 else 0)) := by
              rw [hl]
              simp [bumpAt]
              omega
            rw [harith]
            simp
          · have hord : isOrdinalAt c.style.level d = false := by
              simp only [isOrdinalAt, hdn, hdbf, Bool.not_false, Bool.true_and, Bool.and_true]
              exact beq_eq_false_iff_ne.2 fun h => hl h.symm
            have hcnt : bumpAt counters d.style.level c.style.level =
                counters c.style.level := by
              simp [bumpAt, hl]
            rw [hord, hcnt]
            simp
        · have hdnf : d.style.number = false := by simpa using hdn
          have hord : isOrdinalAt c.style.level d = false := by
            simp [isOrdinalAt, hdnf]
          rw [hord, emitBlocksAux_cons_plain counters d rest hdbf hdnf,
            List.getElem?_cons_succ, ih counters j hget']
          simp

/-! ## Claim C2: bullet blocks -/

/-- C2.  For every slide record and every content block whose style is
classified bullet, the emitter produces exactly one destination
paragraph per block (the paragraph list has the content list's length),
and the paragraph at the block's position has visible text the literal
glyph "• " concatenated with the block's run text, at the block's level
as indentation depth.  (Emission is total, hence it completes without
raising; the prefix glyph comes from the spec-modelled
add_bullet_or_number, absent from src/.) -/
theorem bullet_block_emission (sd : SlideData) (i : Nat) (c : ParaData)
    (hget : sd.content[i]? = some c) (hb : c.style.bullet = true) :
    (create_slide sd).paragraphs.length = sd.content.length ∧
    (create_slide sd).paragraphs[i]? = some ⟨"• " ++ visibleText c, c.style.level⟩ :=
  ⟨emitBlocksAux_length _ _, emitBlocksAux_bullet sd.content _ i c hget hb⟩

/-- A run carrying only text, every optional attribute absent. -/
def runOf (s : String) : RunData :=
  { text := s, bold := none, italic := none, underline := none, fontSizePt := none }

/-- A concrete bullet content block at level 1. -/
def cBullet : ParaData :=
  { text := "point fort",
    style := { bullet := true, number := false, level := 1, runs := [runOf "point fort"] } }

/-- A concrete slide record holding one bullet block. -/
def sdBullet : SlideData :=
  { title := "Titre", subtitle := "Message", content := [cBullet], tables := [] }

/-- Witness for C2 at a concrete slide record. -/
theorem bullet_block_emission_witness :
    (create_slide sdBullet).paragraphs.length = sdBullet.content.length ∧
    (create_slide sdBullet).paragraphs[0]? =
      some ⟨"• " ++ visibleText cBullet, cBullet.style.level⟩ :=
  bullet_block_emission sdBullet 0 cBullet (by decide) (by decide)

/-! ## Claim C4: ordinal blocks -/

/-- C4.  For every slide record, the ordinal blocks are numbered by a
per-slide, per-level counter: the block at position i classified
ordinal at level l is emitted as the count of ordinal blocks at level l
among the slide's first i + 1 blocks, followed by ". " and the run
text, at level l.  The count ranges over this slide's blocks only
(create_slide starts every slide from the all-zero counter state), so
numbering restarts at 1 for every new slide record and every distinct
level, and two sibling ordinal blocks at the same level of the same
slide receive consecutive integers. -/
theorem ordinal_block_emission (sd : SlideData) (i : Nat) (c : ParaData)
    (hget : sd.content[i]? = some c) (hn : c.style.number = true)
    (hb : c.style.bullet = false) :
    (create_slide sd).paragraphs[i]? =
      some ⟨toString (ordinalIndex sd.content i c.style.level) ++ ". " ++ visibleText c,
            c.style.level⟩ := by
  have h := emitBlocksAux_ordinal sd.content (fun _ => 0) i c hget hn hb
  simpa [ordinalIndex, create_slide] using h

/-- A concrete ordinal content block at level 0 with text "premier". -/
def cOrd1 : ParaData :=
  { text := "premier",
    style := { bullet := false, number := true, level := 0, runs := [runOf "premier"] } }

/-- A concrete ordinal content block at level 0 with text "second". -/
def cOrd2 : ParaData :=
  { text := "second",
    style := { bullet := false, number := true, level := 0, runs := [runOf "second"] } }

/-- A concrete slide record with two sibling ordinal blocks. -/
def sdOrd : SlideData :=
  { title := "Titre", subtitle := "Message", content := [cOrd1, cOrd2], tables := [] }

/-- Witness for C4 at a concrete slide: the second sibling ordinal block
of the slide is numbered with ordinalIndex, which evaluates to 2 there
(while the first evaluates to 1). -/
theorem ordinal_block_emission_witness :
    (create_slide sdOrd).paragraphs[1]? =
      some ⟨toString (ordinalIndex sdOrd.content 1 cOrd2.style.level) ++ ". " ++
              visibleText cOrd2, cOrd2.style.level⟩ ∧
    ordinalIndex sdOrd.content 1 cOrd2.style.level = 2 ∧
    ordinalIndex sdOrd.content 0 cOrd1.style.level = 1 :=
  ⟨ordinal_block_emission sdOrd 1 cOrd2 (by decide) (by decide) (by decide),
   by decide, by decide⟩

/-! ## Lemmas about extraction and segmentation -/

theorem firstPara_mem {body : List BodyElem} {pe : ParaElem}
    (h : firstPara body = some pe) : BodyElem.p pe ∈ body := by
  induction body with
  | nil => simp [firstPara] at h
  | cons e rest ih =>
    cases e with
    | p e0 =>
      have : e0 = pe := by simpa [firstPara] using h
      subst this
      exact List.mem_cons_self _ _
    | tbl t =>
      have h' : firstPara rest = some pe := by simpa [firstPara] using h
      exact List.mem_cons_of_mem _ (ih h')
    | other =>
      have h' : firstPara rest = some pe := by simpa [firstPara] using h
      exact List.mem_cons_of_mem _ (ih h')

theorem extract_elements_no_marker {doc : Docx}
    (h : ∀ e ∈ doc.body, isMarkerElem e = false) :
    ∀ x ∈ extract_elements doc, isMarkerExtracted x = false := by
  intro x hx
  rw [extract_elements, List.mem_filterMap] at hx
  obtain ⟨a, _, hfa⟩ := hx
  cases a with
  | p e =>
    cases hp : firstPara doc.body with
    | none => rw [hp] at hfa; simp at hfa
    | some pe =>
      rw [hp] at hfa
      simp only [Option.map_some'] at hfa
      have hx' : x = Extracted.para pe := by
        cases hfa
        rfl
      subst hx'
      have := h _ (firstPara_mem hp)
      simpa [isMarkerElem, isMarkerExtracted] using this
  | tbl t =>
    cases hp : firstTbl doc.body with
    | none => rw [hp] at hfa; simp at hfa
    | some t0 =>
      rw [hp] at hfa
      simp only [Option.map_some'] at hfa
      have hx' : x = Extracted.table t0 := by
        cases hfa
        rfl
      subst hx'
      rfl
  | other => simp at hfa

theorem segStep_not_marker_none (doc : Docx) (e : Extracted)
    (h : isMarkerExtracted e = false) :
    segStep doc ([], none) e = ([], none) := by
  cases e with
  | table t => rfl
  | para pe =>
    have hm : Py.startswith (Py.upper (Py.strip (paraText pe))) "SLIDE" = false := h
    by_cases he : Py.isEmptyStr (Py.strip (paraText pe)) = true
    · simp [segStep, he]
    · simp [segStep, he, hm]

theorem segment_no_marker (doc : Docx) (elems : List Extracted)
    (h : ∀ x ∈ elems, isMarkerExtracted x = false) :
    segmentElems doc elems = [] := by
  suffices hs : elems.foldl (segStep doc) ([], none) = ([], none) by
    simp [segmentElems, hs]
  induction elems with
  | nil => rfl
  | cons e rest ih =>
    rw [List.foldl_cons, segStep_not_marker_none doc e (h e (by simp))]
    exact ih fun x hx => h x (List.mem_cons_of_mem _ hx)

/-! ## Claim C1: a document with zero SLIDE markers -/

/-- A paragraph element with the given single-run text. -/
def mkPara (s : String) : ParaElem :=
  { pPr := none, runs := [runOf s] }

/-- A document whose single paragraph is not a SLIDE marker. -/
def docNoMarker : Docx :=
  { body := [.p (mkPara "Bonjour tout le monde")], numListFirstAbstract := none }

/-- C1 counterexample: at a concrete document with zero SLIDE markers
(one ordinary paragraph), the run does NOT complete without throwing,
and no zero-record result with an informational message is produced:
the extraction loop raises AttributeError at convert.py line 193 (the
body element has no find_all method) before any slide record or log
message exists, so the run is treated as a fatal error, refuting the
claim. -/
theorem no_marker_run_raises_before_parsing :
    markerCount docNoMarker = 0 ∧
    create_ppt_from_docx_run docNoMarker = Except.error findAllErrorMsg ∧
    exceptOk (create_ppt_from_docx_run docNoMarker) = false :=
  ⟨by decide, rfl, by decide⟩

/-- A document whose body holds no paragraph and no table (only an
element of some other tag, such as w:sectPr). -/
def docOnlySectPr : Docx := { body := [.other], numListFirstAbstract := none }

/-- C1 (amended).  For every input document with zero SLIDE-marker
paragraphs, the run never completes without throwing, contrary to the
claim: when the body contains any paragraph or table the extraction
loop raises AttributeError at convert.py line 193/195 (find_all does
not exist on the body elements) before any slide record or count
message is produced; when it contains neither, the parse returns zero
slide records and prints the informational count message, and
create_ppt_from_docx then raises ValueError at line 507.  Either way
the run is treated as a fatal error (exit code 1). -/
theorem no_marker_run_always_fatal (doc : Docx)
    (h : ∀ e ∈ doc.body, isMarkerElem e = false) :
    exceptOk (create_ppt_from_docx_run doc) = false ∧
    (doc.body.any callsFindAll = true →
      create_ppt_from_docx_run doc = Except.error findAllErrorMsg) ∧
    (doc.body.any callsFindAll = false →
      parse_word_content_run doc = Except.ok [] ∧
      parse_log doc = "Nombre total de slides analysées : 0" ∧
      create_ppt_from_docx_run doc =
        Except.error "Aucune slide trouvée dans le document Word.") := by
  have hp0 : parse_word_content doc = [] :=
    segment_no_marker doc _ (extract_elements_no_marker h)
  have hlog : parse_log doc = "Nombre total de slides analysées : 0" := by
    rw [parse_log, hp0]
    rfl
  by_cases hfa : doc.body.any callsFindAll = true
  · have hrun : create_ppt_from_docx_run doc = Except.error findAllErrorMsg := by
      simp [create_ppt_from_docx_run, parse_word_content_run, extract_elements_run, hfa]
    refine ⟨by rw [hrun]; rfl, fun _ => hrun, fun hcontra => ?_⟩
    rw [hfa] at hcontra
    cases hcontra
  · have hfaf : doc.body.any callsFindAll = false := by simpa using hfa
    have hparse : parse_word_content_run doc = Except.ok [] := by
      simp [parse_word_content_run, extract_elements_run, hfaf, segmentElems]
    have hppt : create_ppt_from_docx_run doc =
        Except.error "Aucune slide trouvée dans le document Word." := by
      rw [create_ppt_from_docx_run, hparse]
      rfl
    refine ⟨by rw [hppt]; rfl, fun hcontra => ?_, fun _ => ⟨hparse, hlog, hppt⟩⟩
    rw [hfaf] at hcontra
    cases hcontra

/-- Witness for the amended C1, applying the theorem at two concrete
no-marker documents, one per failure mode: a body with a paragraph
(AttributeError branch) and a body with neither paragraph nor table
(ValueError branch). -/
theorem no_marker_run_always_fatal_witness :
    (exceptOk (create_ppt_from_docx_run docNoMarker) = false ∧
     (docNoMarker.body.any callsFindAll = true →
       create_ppt_from_docx_run docNoMarker = Except.error findAllErrorMsg) ∧
     (docNoMarker.body.any callsFindAll = false →
       parse_word_content_run docNoMarker = Except.ok [] ∧
       parse_log docNoMarker = "Nombre total de slides analysées : 0" ∧
       create_ppt_from_docx_run docNoMarker =
         Except.error "Aucune slide trouvée dans le document Word.")) ∧
    (exceptOk (create_ppt_from_docx_run docOnlySectPr) = false ∧
     (docOnlySectPr.body.any callsFindAll = true →
       create_ppt_from_docx_run docOnlySectPr = Except.error findAllErrorMsg) ∧
     (docOnlySectPr.body.any callsFindAll = false →
       parse_word_content_run docOnlySectPr = Except.ok [] ∧
       parse_log docOnlySectPr = "Nombre total de slides analysées : 0" ∧
       create_ppt_from_docx_run docOnlySectPr =
         Except.error "Aucune slide trouvée dans le document Word.")) :=
  ⟨no_marker_run_always_fatal docNoMarker (by decide),
   no_marker_run_always_fatal docOnlySectPr (by decide)⟩

/-! ## Claim C3: the block extractor -/

/-- A first concrete paragraph. -/
def paraA : ParaElem := mkPara "Premier paragraphe"

/-- A second, different concrete paragraph. -/
def paraB : ParaElem := mkPara "Second paragraphe"

/-- A document whose body is the two paragraphs above in order. -/
def docAB : Docx := { body := [.p paraA, .p paraB], numListFirstAbstract := none }

/-- C3 is violated by the code (code bug): on a body holding two
distinct paragraphs, the extraction loop of parse_word_content yields a
second pair that refers to the FIRST body element again, not to the
second one — doc.element.body.find_all(element.tag)[0] is appended in
place of the current element (convert.py lines 193 and 195), so the
i-th pair does not refer to the i-th body-level element. -/
theorem extractor_repeats_first_element :
    extract_elements docAB = [.para paraA, .para paraA] ∧ paraA ≠ paraB := by
  decide

/-! ## Claim C6: marker count versus slide-record count -/

/-- A document whose single SLIDE marker is its second paragraph. -/
def docLateMarker : Docx :=
  { body := [.p (mkPara "intro"), .p (mkPara "SLIDE 1")], numListFirstAbstract := none }

/-- A document whose first paragraph is its single SLIDE marker,
followed by two ordinary paragraphs. -/
def docEarlyMarker : Docx :=
  { body := [.p (mkPara "SLIDE un"), .p (mkPara "premier"), .p (mkPara "second")],
    numListFirstAbstract := none }

/-- C6 is violated by the code (code bug, same root cause as the
extractor bug): a document with exactly N = 1 SLIDE-marker paragraphs
does not yield exactly 1 slide record.  Because every extracted pair
carries the FIRST paragraph, a document whose marker comes second
yields 0 records, and a document whose marker comes first yields one
record per paragraph (3 here). -/
theorem marker_count_mismatch :
    markerCount docLateMarker = 1 ∧ (parse_word_content docLateMarker).length = 0 ∧
    markerCount docEarlyMarker = 1 ∧ (parse_word_content docEarlyMarker).length = 3 := by
  decide

/-! ## Claim C5: level computation -/

/-- A paragraph with bullet-numbering metadata (a numPr with a numId but
no ilvl) and a left indent of 0.5 inch. -/
def paraIndented : ParaElem :=
  { pPr := some { numPr := some { ilvl := none, numId := some 5 },
                  indLeftInches := some (1 / 2 : ℚ) },
    runs := [runOf "item"] }

/-- A document whose first numbering definition has abstractNumId 0, so
numbered paragraphs classify as bullets. -/
def docFirstNumZero : Docx :=
  { body := [.p paraIndented], numListFirstAbstract := some 0 }

/-- C5 counterexample: a paragraph with bullet-numbering metadata and a
0.5 inch left indent classifies as bullet with level 0, not level 2 —
the classifier never computes floor(indentInches / 0.25). -/
theorem indent_never_used_counterexample :
    (get_paragraph_style docFirstNumZero paraIndented).bullet = true ∧
    (get_paragraph_style docFirstNumZero paraIndented).level = 0 ∧
    (get_paragraph_style docFirstNumZero paraIndented).level ≠ 2 := by
  decide

/-- C5 (amended).  The classifier's level never consults the left
indent: the style is unchanged under any change of the indent
measurement, and the level always equals the explicit ilvl nesting
value of the paragraph's numbering metadata when present, 0 otherwise
(in particular the level-2 example of the claim yields level 0). -/
theorem level_from_ilvl_only :
    (∀ (doc : Docx) (np : Option NumPr) (ind ind' : Option ℚ) (runs : List RunData),
      get_paragraph_style doc { pPr := some { numPr := np, indLeftInches := ind },
                                runs := runs } =
      get_paragraph_style doc { pPr := some { numPr := np, indLeftInches := ind' },
                                runs := runs }) ∧
    (∀ (doc : Docx) (para : ParaElem),
      (get_paragraph_style doc para).level =
        (match para.pPr with
         | some pr =>
           (match pr.numPr with
            | some np => np.ilvl.getD 0
            | none => 0)
         | none => 0)) := by
  constructor
  · intro doc np ind ind' runs
    rfl
  · intro doc para
    rcases para with ⟨op, runs⟩
    cases op with
    | none => rfl
    | some pr =>
      rcases pr with ⟨onp, ind⟩
      cases onp with
      | none => rfl
      | some np =>
        rcases np with ⟨oi, onid⟩
        cases onid with
        | none => rfl
        | some nid =>
          cases hna : doc.numListFirstAbstract with
          | none => simp [get_paragraph_style, hna]
          | some a =>
            by_cases ha : a = 0 <;> simp [get_paragraph_style, hna, ha]

/-! ## Claim C7: field-label lines -/

/-- A neutral document for exercising single segmentation steps. -/
def docForStep : Docx := { body := [], numListFirstAbstract := none }

/-- C7.  While a slide record is open, a paragraph line starting with
the exact title label never contributes to the record's content blocks:
the segmentation step leaves the accumulated records and the content
list untouched and only replaces the record's title with the remainder
of the line after the label, stripped; likewise for the subtitle label.
The two auxiliary hypotheses (the stripped line is nonempty, and its
uppercasing does not start with SLIDE) always hold for a line starting
with either label, since both labels are nonempty and neither starts
with SLIDE. -/
theorem field_label_sets_field (doc : Docx) (acc : List SlideData) (cur : SlideData)
    (pe : ParaElem)
    (hne : Py.isEmptyStr (Py.strip (paraText pe)) = false)
    (hmk : Py.startswith (Py.upper (Py.strip (paraText pe))) "SLIDE" = false) :
    (Py.startswith (Py.strip (paraText pe)) titreLabel = true →
      segStep doc (acc, some cur) (.para pe) =
        (acc, some { cur with title := Py.strip (Py.dropChars (Py.strip (paraText pe)) (Py.strLen titreLabel)) })) ∧
    (Py.startswith (Py.strip (paraText pe)) titreLabel = false →
      Py.startswith (Py.strip (paraText pe)) sousTitreLabel = true →
      segStep doc (acc, some cur) (.para pe) =
        (acc, some { cur with subtitle := Py.strip (Py.dropChars (Py.strip (paraText pe)) (Py.strLen sousTitreLabel)) })) := by
  constructor
  · intro ht
    simp [segStep, hne, hmk, ht]
  · intro ht hs
    simp [segStep, hne, hmk, ht, hs]

/-- A concrete title-label line. -/
def peTitre : ParaElem := mkPara "Titre : Aperçu stratégique"

/-- A concrete subtitle-label line. -/
def peSousTitre : ParaElem := mkPara "Sous-titre / Message clé : Synthèse"

/-- Witness for C7: both label lines, applied to an open empty record,
set exactly the title (resp. subtitle) field and append no content. -/
theorem field_label_sets_field_witness :
    segStep docForStep ([], some emptySlide) (.para peTitre) =
      ([], some { emptySlide with title := "Aperçu stratégique" }) ∧
    segStep docForStep ([], some emptySlide) (.para peSousTitre) =
      ([], some { emptySlide with subtitle := "Synthèse" }) :=
  ⟨((field_label_sets_field docForStep [] emptySlide peTitre (by decide) (by decide)).1
      (by decide)).trans (by decide),
   ((field_label_sets_field docForStep [] emptySlide peSousTitre (by decide) (by decide)).2
      (by decide) (by decide)).trans (by decide)⟩

/-! ## Lemmas about the table fill -/

theorem set_of_getElem? {α : Type} {l : List α} {i : Nat} {a : α}
    (h : l[i]? = some a) : l.set i a = l := by
  induction l generalizing i with
  | nil => simp at h
  | cons x xs ih =>
    cases i with
    | zero =>
      have hx : x = a := by simpa using h
      subst hx
      rfl
    | succ j =>
      have h' : xs[j]? = some a := by simpa using h
      simp [List.set_cons_succ, ih h']

theorem take_set_succ {α : Type} {l : List α} {i : Nat} {a : α} (h : i < l.length) :
    (l.set i a).take (i + 1) = l.take i ++ [a] := by
  induction l generalizing i with
  | nil => simp at h
  | cons x xs ih =>
    cases i with
    | zero => simp
    | succ j =>
      have hj : j < xs.length := by simpa using h
      simp [List.set_cons_succ, List.take_succ_cons, ih hj]

theorem fillRowCells_eq (i : Nat) (row : List (List String)) :
    ∀ (j : Nat) (g : List (List PCell)) (tgt : List PCell),
      g[i]? = some tgt → tgt.length = j + row.length →
      fillRowCells i j g row = g.set i (tgt.take j ++ row.map (mkPCell i)) := by
  induction row with
  | nil =>
    intro j g tgt hg hlen
    simp only [List.length_nil] at hlen
    simp only [fillRowCells, List.map_nil, List.append_nil]
    rw [List.take_of_length_le (by omega)]
    exact (set_of_getElem? hg).symm
  | cons c rest ih =>
    intro j g tgt hg hlen
    have hi : i < g.length := (List.getElem?_eq_some_iff.1 hg).1
    have hj : j < tgt.length := by
      simp only [List.length_cons] at hlen
      omega
    have hsc : setCell g i j (mkPCell i c) = g.set i (tgt.set j (mkPCell i c)) := by
      rw [setCell, hg]
    have hg' : (g.set i (tgt.set j (mkPCell i c)))[i]? = some (tgt.set j (mkPCell i c)) :=
      List.getElem?_set_self hi
    have hlen' : (tgt.set j (mkPCell i c)).length = (j + 1) + rest.length := by
      simp only [List.length_set, List.length_cons] at hlen ⊢
      omega
    calc fillRowCells i j g (c :: rest)
        = fillRowCells i (j + 1) (g.set i (tgt.set j (mkPCell i c))) rest := by
          rw [fillRowCells, hsc]
      _ = (g.set i (tgt.set j (mkPCell i c))).set i
            ((tgt.set j (mkPCell i c)).take (j + 1) ++ rest.map (mkPCell i)) :=
          ih (j + 1) _ _ hg' hlen'
      _ = g.set i (tgt.take j ++ (c :: rest).map (mkPCell i)) := by
          rw [List.set_set, take_set_succ hj]
          simp

/-- The destination rows the fill produces from source rows starting at
row index i: row k of the source becomes its cells mapped through
mkPCell (i + k). -/
def expectedRows : Nat → List (List (List String)) → List (List PCell)
  | _, [] => []
  | i, row :: rest => row.map (mkPCell i) :: expectedRows (i + 1) rest

theorem expectedRows_length (i : Nat) (src : List (List (List String))) :
    (expectedRows i src).length = src.length := by
  induction src generalizing i with
  | nil => rfl
  | cons row rest ih => simp [expectedRows, ih]

theorem expectedRows_getElem? (src : List (List (List String))) (i k : Nat) :
    (expectedRows i src)[k]? = (src[k]?).map fun r => r.map (mkPCell (i + k)) := by
  induction src generalizing i k with
  | nil => simp [expectedRows]
  | cons row rest ih =>
    cases k with
    | zero => simp [expectedRows]
    | succ j =>
      have harr : i + (j + 1) = (i + 1) + j := by omega
      simp [expectedRows, ih (i + 1) j, harr]

theorem fillCells_eq (src : List (List (List String))) :
    ∀ (i : Nat) (g : List (List PCell)),
      g.length = i + src.length →
      (∀ (k : Nat) (rowS : List (List String)), src[k]? = some rowS →
        ∃ rowG, g[i + k]? = some rowG ∧ rowG.length = rowS.length) →
      fillCells i g src = g.take i ++ expectedRows i src := by
  induction src with
  | nil =>
    intro i g hlen _
    simp only [List.length_nil] at hlen
    simp only [fillCells, expectedRows, List.append_nil]
    exact (List.take_of_length_le (by omega)).symm
  | cons row rest ih =>
    intro i g hlen hrows
    obtain ⟨tgt, hg, htlen⟩ := hrows 0 row (by simp)
    rw [Nat.add_zero] at hg
    have hi : i < g.length := (List.getElem?_eq_some_iff.1 hg).1
    have hfill : fillRowCells i 0 g row = g.set i (row.map (mkPCell i)) := by
      have := fillRowCells_eq i row 0 g tgt hg (by omega)
      simpa using this
    have hlen' : (g.set i (row.map (mkPCell i))).length = (i + 1) + rest.length := by
      simp only [List.length_set, List.length_cons] at hlen ⊢
      omega
    have hrows' : ∀ (k : Nat) (rowS : List (List String)), rest[k]? = some rowS →
        ∃ rowG, (g.set i (row.map (mkPCell i)))[(i + 1) + k]? = some rowG ∧
          rowG.length = rowS.length := by
      intro k rowS hk
      obtain ⟨rowG, hrg, hrl⟩ := hrows (k + 1) rowS (by simpa using hk)
      refine ⟨rowG, ?_, hrl⟩
      rw [List.getElem?_set_ne (by omega)]
      have harr : (i + 1) + k = i + (k + 1) := by omega
      rw [harr]
      exact hrg
    calc fillCells i g (row :: rest)
        = fillCells (i + 1) (g.set i (row.map (mkPCell i))) rest := by
          rw [fillCells, hfill]
      _ = (g.set i (row.map (mkPCell i))).take (i + 1) ++ expectedRows (i + 1) rest :=
          ih (i + 1) _ hlen' hrows'
      _ = g.take i ++ expectedRows i (row :: rest) := by
          rw [take_set_succ hi]
          simp [expectedRows]

/-- Under rectangularity (every source row has exactly gridCols cells,
as python-docx guarantees for its tables), the grid built by
add_table_to_slide is exactly the source rows mapped cell by cell. -/
theorem add_table_to_slide_eq (t : TblElem)
    (hrect : ∀ r ∈ t.cells, r.length = t.gridCols) :
    add_table_to_slide t = expectedRows 0 t.cells := by
  rw [add_table_to_slide]
  have h := fillCells_eq t.cells 0 (mkGrid t.cells.length t.gridCols)
    (by simp [mkGrid])
    (by
      intro k rowS hk
      have hklt : k < t.cells.length := (List.getElem?_eq_some_iff.1 hk).1
      refine ⟨List.replicate t.gridCols { text := "", bold := none }, ?_, ?_⟩
      · rw [Nat.zero_add]
        simp [mkGrid, List.getElem?_replicate_of_lt hklt]
      · simp [hrect rowS (List.getElem?_mem hk)])
  simpa using h

/-! ## Claim C8: cell text joining -/

/-- A concrete one-row, one-column table whose single cell holds two
paragraphs "a" and "b". -/
def tTwoParas : TblElem := { gridCols := 1, cells := [[["a", "b"]]] }

/-- C8 counterexample: the destination cell for a source cell with the
two paragraphs "a" and "b" holds "a b" — the paragraphs are joined with
a single space (convert.py line 126), not with a newline as claimed. -/
theorem cell_newline_join_counterexample :
    add_table_to_slide tTwoParas = [[{ text := "a b", bold := some true }]] ∧
    ("a b" : String) ≠ "a" ++ "\n" ++ "b" := by
  decide

/-- C8 (amended).  For every rectangular source table emitted to a
slide, the destination cell (i, j) holds the source cell's paragraph
texts with the empty ones dropped, joined with a single SPACE (not a
newline), and bold exactly on the first row. -/
theorem cell_text_space_joined (t : TblElem) (i j : Nat)
    (rowS : List (List String)) (cellS : List String)
    (hrect : ∀ r ∈ t.cells, r.length = t.gridCols)
    (hrow : t.cells[i]? = some rowS) (hcell : rowS[j]? = some cellS) :
    ∃ rowP, (add_table_to_slide t)[i]? = some rowP ∧
      rowP[j]? = some { text := Py.joinSep " " (cellS.filter fun s => !(Py.isEmptyStr s)),
                        bold := if i = 0 then some true else none } := by
  rw [add_table_to_slide_eq t hrect, expectedRows_getElem?, hrow]
  refine ⟨rowS.map (mkPCell (0 + i)), by simp, ?_⟩
  simp [hcell, mkPCell, cellText]

/-- A concrete rectangular 2 by 2 table; the top-left cell has two
nonempty paragraphs plus an empty one. -/
def tRect : TblElem :=
  { gridCols := 2,
    cells := [[["a", "", "b"], ["c"]], [["d"], ["e", "f"]]] }

/-- Witness for the amended C8 at the concrete table: the top-left
destination cell text space-joins the two nonempty paragraphs. -/
theorem cell_text_space_joined_witness :
    (∀ r ∈ tRect.cells, r.length = tRect.gridCols) ∧
    tRect.cells[0]? = some [["a", "", "b"], ["c"]] ∧
    ([["a", "", "b"], ["c"]] : List (List String))[0]? = some ["a", "", "b"] ∧
    (∃ rowP, (add_table_to_slide tRect)[0]? = some rowP ∧
      rowP[0]? = some { text := Py.joinSep " " ((["a", "", "b"] : List String).filter
                          fun s => !(Py.isEmptyStr s)),
                        bold := if (0 : Nat) = 0 then some true else none }) :=
  ⟨by decide, by decide, by decide,
   cell_text_space_joined tRect 0 0 [["a", "", "b"], ["c"]] ["a", "", "b"]
     (by decide) (by decide) (by decide)⟩

/-! ## Claim C9: table dimensions and header bolding -/

/-- C9.  For every rectangular source table emitted to a slide, the
output grid has exactly the source's row count and column count, every
cell of the first output row carries bold forced on, and no cell of a
later row has its bold flag touched (it stays at the tri-state none). -/
theorem table_fidelity (t : TblElem)
    (hrect : ∀ r ∈ t.cells, r.length = t.gridCols) :
    (add_table_to_slide t).length = t.cells.length ∧
    (∀ rowP ∈ add_table_to_slide t, rowP.length = t.gridCols) ∧
    (∀ rowP, (add_table_to_slide t)[0]? = some rowP →
      ∀ cell ∈ rowP, cell.bold = some true) ∧
    (∀ (i : Nat) (rowP : List PCell), 0 < i → (add_table_to_slide t)[i]? = some rowP →
      ∀ cell ∈ rowP, cell.bold = none) := by
  rw [add_table_to_slide_eq t hrect]
  refine ⟨expectedRows_length 0 _, ?_, ?_, ?_⟩
  · intro rowP hmem
    obtain ⟨k, hk⟩ := List.getElem?_of_mem hmem
    rw [expectedRows_getElem?] at hk
    cases hsrc : t.cells[k]? with
    | none => rw [hsrc] at hk; simp at hk
    | some rowS =>
      rw [hsrc] at hk
      simp only [Option.map_some'] at hk
      have hrp : rowP = rowS.map (mkPCell (0 + k)) := by
        cases hk
        rfl
      rw [hrp, List.length_map]
      exact hrect rowS (List.getElem?_mem hsrc)
  · intro rowP h0 cell hcell
    rw [expectedRows_getElem?] at h0
    cases hsrc : t.cells[0]? with
    | none => rw [hsrc] at h0; simp at h0
    | some rowS =>
      rw [hsrc] at h0
      simp only [Option.map_some'] at h0
      have hrp : rowP = rowS.map (mkPCell 0) := by
        cases h0
        rfl
      rw [hrp] at hcell
      obtain ⟨c0, _, hc0⟩ := List.mem_map.1 hcell
      rw [← hc0]
      rfl
  · intro i rowP hi hgi cell hcell
    rw [expectedRows_getElem?] at hgi
    cases hsrc : t.cells[i]? with
    | none => rw [hsrc] at hgi; simp at hgi
    | some rowS =>
      rw [hsrc] at hgi
      simp only [Option.map_some'] at hgi
      have hrp : rowP = rowS.map (mkPCell (0 + i)) := by
        cases hgi
        rfl
      rw [hrp] at hcell
      obtain ⟨c0, _, hc0⟩ := List.mem_map.1 hcell
      rw [← hc0]
      simp [mkPCell]
      omega

/-- Witness for C9 at the concrete rectangular table. -/
theorem table_fidelity_witness :
    (∀ r ∈ tRect.cells, r.length = tRect.gridCols) ∧
    ((add_table_to_slide tRect).length = tRect.cells.length ∧
     (∀ rowP ∈ add_table_to_slide tRect, rowP.length = tRect.gridCols) ∧
     (∀ rowP, (add_table_to_slide tRect)[0]? = some rowP →
       ∀ cell ∈ rowP, cell.bold = some true) ∧
     (∀ (i : Nat) (rowP : List PCell), 0 < i → (add_table_to_slide tRect)[i]? = some rowP →
       ∀ cell ∈ rowP, cell.bold = none)) :=
  ⟨by decide, table_fidelity tRect (by decide)⟩

/-! ## Claim C10: list kind from the first numbering definition only -/

/-- A paragraph carrying list-numbering metadata: a numPr whose numId is
present. -/
def hasNumbering (p : ParaElem) : Bool :=
  match p.pPr with
  | some pr =>
    match pr.numPr with
    | some np => np.numId.isSome
    | none => false
  | none => false

/-- The list kind the classifier derives from the document alone: bullet
when the first numbering definition's abstractNumId equals 0 or when the
numbering lookup raises, ordinal otherwise (convert.py lines 166-174). -/
def firstNumIsBullet (doc : Docx) : Bool :=
  match doc.numListFirstAbstract with
  | none => true
  | some a => a == 0

/-- C10.  Every paragraph carrying list-numbering metadata is classified
from the document's first numbering definition only: it is bullet
exactly when that definition's abstractNumId is 0 (or the lookup
raises), ordinal otherwise, independently of the paragraph's own numId —
hence any two numbered paragraphs of one document get the same kind. -/
theorem numbered_kind_from_first_definition (doc : Docx) (p q : ParaElem)
    (hp : hasNumbering p = true) (hq : hasNumbering q = true) :
    (get_paragraph_style doc p).bullet = firstNumIsBullet doc ∧
    (get_paragraph_style doc p).number = !firstNumIsBullet doc ∧
    (get_paragraph_style doc p).bullet = (get_paragraph_style doc q).bullet ∧
    (get_paragraph_style doc p).number = (get_paragraph_style doc q).number := by
  suffices key : ∀ r : ParaElem, hasNumbering r = true →
      (get_paragraph_style doc r).bullet = firstNumIsBullet doc ∧
      (get_paragraph_style doc r).number = !firstNumIsBullet doc by
    obtain ⟨hb, hn⟩ := key p hp
    obtain ⟨hb', hn'⟩ := key q hq
    exact ⟨hb, hn, hb.trans hb'.symm, hn.trans hn'.symm⟩
  intro r hr
  rcases r with ⟨op, runs⟩
  cases op with
  | none => simp [hasNumbering] at hr
  | some pr =>
    rcases pr with ⟨onp, ind⟩
    cases onp with
    | none => simp [hasNumbering] at hr
    | some np =>
      rcases np with ⟨oi, onid⟩
      cases onid with
      | none => simp [hasNumbering] at hr
      | some nid =>
        cases hna : doc.numListFirstAbstract with
        | none => simp [get_paragraph_style, firstNumIsBullet, hna]
        | some a =>
          by_cases ha : a = 0 <;>
            simp [get_paragraph_style, firstNumIsBullet, hna, ha]

/-- A second numbered paragraph with a different numId and a deeper
ilvl. -/
def paraNumbered7 : ParaElem :=
  { pPr := some { numPr := some { ilvl := some 2, numId := some 7 },
                  indLeftInches := none },
    runs := [runOf "élément"] }

/-- A document whose first numbering definition has abstractNumId 3, so
every numbered paragraph classifies as ordinal. -/
def docFirstNumThree : Docx :=
  { body := [.p paraIndented, .p paraNumbered7], numListFirstAbstract := some 3 }

/-- Witness for C10: two paragraphs with different numIds (5 and 7) in a
document whose first numbering definition has abstractNumId 3 both
classify as ordinal. -/
theorem numbered_kind_from_first_definition_witness :
    (get_paragraph_style docFirstNumThree paraIndented).bullet =
      firstNumIsBullet docFirstNumThree ∧
    (get_paragraph_style docFirstNumThree paraIndented).number =
      !firstNumIsBullet docFirstNumThree ∧
    (get_paragraph_style docFirstNumThree paraIndented).bullet =
      (get_paragraph_style docFirstNumThree paraNumbered7).bullet ∧
    (get_paragraph_style docFirstNumThree paraIndented).number =
      (get_paragraph_style docFirstNumThree paraNumbered7).number :=
  numbered_kind_from_first_definition docFirstNumThree paraIndented paraNumbered7
    (by decide) (by decide)

end Convert
